import Mathlib

/-!
Verification of the indicator-computation and signal-classification core of
`stock_analysis_app.py`.

The script computes, over the `Close` column of a price history:
  * `SMA50`, `SMA200` — rolling means (windows 50 and 200),
  * `RSI` — relative strength index (window 14),
  * `BB_High`, `BB_Low` — Bollinger Bands (window 20, k = 2),
  * `Volatility` — rolling standard deviation (window 20),
and then classifies the last row into trend / momentum / band states by
chained strict comparisons (`if a > b: ... elif a < b: ... else: ...`).

Closing prices are modelled as exact rationals; a rolling value that pandas
would render as `NaN` (the leading positions of a rolling window) is
modelled as `none`.  A Python comparison against `NaN` is `False`, which the
classifier embeddings reproduce by pattern-matching on the optional values.
The internals of the third-party indicator routines (`ta`, pandas) are not
part of this repository; they are modelled from the specification: rolling
mean over the trailing window, RSI as the trailing-mean Wilder-style
quotient with the documented zero-loss edge cases and its first `window`
positions undefined, and one shared sample standard-deviation routine
(divisor `window - 1`) used both inside the Bollinger Bands and for the
`Volatility` column.  The standard deviation takes values in `ℝ` because an
exact square root leaves `ℚ`.
-/

namespace StockAnalysis

attribute [local semireducible] Rat.add Rat.sub Rat.mul Rat.inv

/-- Arithmetic mean of a list of rationals (sum divided by length). -/
def mean (xs : List ℚ) : ℚ := xs.sum / (xs.length : ℚ)

/-- Sum of squares of a list of rationals. -/
def sumSq (xs : List ℚ) : ℚ := (xs.map (fun x => x * x)).sum

/-- The trailing window of width `w` ending at position `i`:
elements `i - w + 1 .. i` of the series. -/
def windowAt (w : Nat) (xs : List ℚ) (i : Nat) : List ℚ :=
  (xs.take (i + 1)).drop (i + 1 - w)

/-- Rolling application of `f` with window `w`: one output per input
position, `none` while fewer than `w` observations are available, and
`f` of the trailing window from position `w - 1` on.  This is the common
shape of `pandas.Series.rolling(window=w)` with `min_periods = w`. -/
def rollingApply {α : Type} (w : Nat) (f : List ℚ → α) (xs : List ℚ) :
    List (Option α) :=
  (List.range xs.length).map
    (fun i => if w ≤ i + 1 then some (f (windowAt w xs i)) else none)

/-- The entry of an indicator series at position `i` (`none` out of range). -/
def atIdx {α : Type} (l : List (Option α)) (i : Nat) : Option α :=
  (l[i]?).getD none

/-- The last entry of an indicator series, as selected by the script's
`series[-1]`; `none` on the empty series. -/
def lastVal {α : Type} (l : List (Option α)) : Option α :=
  atIdx l (l.length - 1)

/-- Modelled from the spec: `SMAIndicator(close, window=w).sma_indicator()`,
whose implementation is in the external `ta` library — the rolling
arithmetic mean of the closing prices. -/
def smaOf (w : Nat) (xs : List ℚ) : List (Option ℚ) :=
  rollingApply w mean xs

/-- Modelled from the spec: the sample variance used by the shared rolling
standard-deviation routine (divisor `length - 1`), computed from the
rolling sum and rolling sum of squares. -/
def sampleVar (xs : List ℚ) : ℚ :=
  (sumSq xs - xs.sum * xs.sum / (xs.length : ℚ)) / ((xs.length : ℚ) - 1)

/-- Modelled from the spec: the single standard-deviation routine shared by
the Bollinger Bands and the `Volatility` column. -/
noncomputable def stdDev (xs : List ℚ) : ℝ :=
  Real.sqrt (sampleVar xs)

/-- Upper Bollinger Band value on one window: mean plus `k = 2` standard
deviations (the defaults of `BollingerBands(close)`). -/
noncomputable def bbUpperVal (xs : List ℚ) : ℝ :=
  ((mean xs : ℚ) : ℝ) + 2 * stdDev xs

/-- Lower Bollinger Band value on one window: mean minus `2` standard
deviations. -/
noncomputable def bbLowerVal (xs : List ℚ) : ℝ :=
  ((mean xs : ℚ) : ℝ) - 2 * stdDev xs

/-- Modelled from the spec: `bb_indicator.bollinger_hband()` — window 20. -/
noncomputable def bbUpperOf (xs : List ℚ) : List (Option ℝ) :=
  rollingApply 20 bbUpperVal xs

/-- Modelled from the spec: `bb_indicator.bollinger_lband()` — window 20. -/
noncomputable def bbLowerOf (xs : List ℚ) : List (Option ℝ) :=
  rollingApply 20 bbLowerVal xs

/-- Modelled from the spec: `Close.rolling(window=20).std()` — the
`Volatility` column, reusing the shared standard-deviation routine. -/
noncomputable def volatilityOf (xs : List ℚ) : List (Option ℝ) :=
  rollingApply 20 stdDev xs

/-- The window-20 rolling mean underlying the Bollinger Bands, as a real
series (for comparison with the bands). -/
noncomputable def sma20Of (xs : List ℚ) : List (Option ℝ) :=
  rollingApply 20 (fun win => ((mean win : ℚ) : ℝ)) xs

/-- Per-step price changes: `Δ j = close (j+1) - close j`. -/
def diffs (xs : List ℚ) : List ℚ :=
  List.zipWith (fun a b => b - a) xs xs.tail

/-- The gain at each step: `max Δ 0`. -/
def gainsOf (xs : List ℚ) : List ℚ :=
  (diffs xs).map (fun d => max d 0)

/-- The loss at each step: `max (-Δ) 0`. -/
def lossesOf (xs : List ℚ) : List ℚ :=
  (diffs xs).map (fun d => max (-d) 0)

/-- Average gain over the trailing 14 steps ending at position `i`
(step `j` enters at series position `j + 1`). -/
def avgGainAt (xs : List ℚ) (i : Nat) : ℚ :=
  mean (((gainsOf xs).drop (i - 14)).take 14)

/-- Average loss over the trailing 14 steps ending at position `i`. -/
def avgLossAt (xs : List ℚ) (i : Nat) : ℚ :=
  mean (((lossesOf xs).drop (i - 14)).take 14)

/-- One RSI value from an average gain and an average loss, with the
specified edge cases: zero loss gives 100, zero gain and zero loss give 50,
otherwise `100 - 100 / (1 + RS)` with `RS = avgGain / avgLoss`. -/
def rsiVal (g l : ℚ) : ℚ :=
  if l = 0 then (if g = 0 then 50 else 100)
  else 100 - 100 / (1 + g / l)

/-- Modelled from the spec: `RSIIndicator(close, window=14).rsi()`, whose
implementation is in the external `ta` library — per-step changes are split
into gains and losses, averaged over the trailing 14 steps, and combined by
`rsiVal`; the first 14 positions are undefined. -/
def rsiOf (xs : List ℚ) : List (Option ℚ) :=
  (List.range xs.length).map
    (fun i => if 14 ≤ i then some (rsiVal (avgGainAt xs i) (avgLossAt xs i))
              else none)

/-- Trend states.  The script itself only ever produces the first three;
`undetermined` is the extra state named by the specification. -/
inductive Trend where
  | upward
  | downward
  | sideways
  | undetermined
deriving DecidableEq

/-- Momentum states; `undetermined` is the specification's extra state. -/
inductive Momentum where
  | overbought
  | oversold
  | neutral
  | undetermined
deriving DecidableEq

/-- Bollinger-band states; `undetermined` is the specification's extra
state. -/
inductive BandView where
  | aboveUpperBand
  | belowLowerBand
  | withinBands
  | undetermined
deriving DecidableEq

/-- The script's trend classifier (`if sma50 > sma200: ... elif ... else`).
A `NaN` operand makes both Python comparisons `False`, so any undefined
operand lands in the `else` (sideways) branch. -/
def trendState (a b : Option ℚ) : Trend :=
  match a, b with
  | some x, some y =>
      if x > y then Trend.upward
      else if x < y then Trend.downward
      else Trend.sideways
  | some _, none => Trend.sideways
  | none, some _ => Trend.sideways
  | none, none => Trend.sideways

/-- The script's RSI classifier (`if rsi > 70: ... elif rsi < 30: ... else`).
An undefined RSI makes both comparisons `False`, landing in the neutral
branch. -/
def momentumState (r : Option ℚ) : Momentum :=
  match r with
  | some x =>
      if x > 70 then Momentum.overbought
      else if x < 30 then Momentum.oversold
      else Momentum.neutral
  | none => Momentum.neutral

/-- The script's Bollinger-band classifier
(`if close > bb_high: ... elif close < bb_low: ... else`).  A comparison
against an undefined (`NaN`) band is `False`. -/
noncomputable def bandState (c : ℚ) (u l : Option ℝ) : BandView :=
  match u, l with
  | some uv, some lv =>
      if (c : ℝ) > uv then BandView.aboveUpperBand
      else if (c : ℝ) < lv then BandView.belowLowerBand
      else BandView.withinBands
  | some uv, none =>
      if (c : ℝ) > uv then BandView.aboveUpperBand else BandView.withinBands
  | none, some lv =>
      if (c : ℝ) < lv then BandView.belowLowerBand else BandView.withinBands
  | none, none => BandView.withinBands

/-- The last closing price, as selected by `Close[-1]` (the script only
reaches this point on a nonempty history). -/
def lastClose (xs : List ℚ) : ℚ := xs.getLastD 0

/-- The trend classification the script derives from a close series. -/
def trendOf (xs : List ℚ) : Trend :=
  trendState (lastVal (smaOf 50 xs)) (lastVal (smaOf 200 xs))

/-- The momentum classification the script derives from a close series. -/
def momentumOf (xs : List ℚ) : Momentum :=
  momentumState (lastVal (rsiOf xs))

/-- The band classification the script derives from a close series. -/
noncomputable def bandStateOf (xs : List ℚ) : BandView :=
  bandState (lastClose xs) (lastVal (bbUpperOf xs)) (lastVal (bbLowerOf xs))

/-- The data frame as returned by `stock.history`: a close column and, as
yet, no indicator columns. -/
structure Frame where
  close : List ℚ
  sma50 : List (Option ℚ)
  sma200 : List (Option ℚ)
  rsi : List (Option ℚ)
  bbHigh : List (Option ℝ)
  bbLow : List (Option ℝ)
  volatility : List (Option ℝ)

/-- A freshly fetched frame holding only the close column. -/
def initFrame (closes : List ℚ) : Frame :=
  { close := closes, sma50 := [], sma200 := [], rsi := [],
    bbHigh := [], bbLow := [], volatility := [] }

/-- The script's six in-place column assignments
(`historical_data['SMA50'] = ...` through `historical_data['Volatility']`),
rendered as explicit state passing; each step reads the `Close` column of
the frame produced by the previous step. -/
noncomputable def addIndicators (f : Frame) : Frame :=
  let f1 := { f with sma50 := smaOf 50 f.close }
  let f2 := { f1 with sma200 := smaOf 200 f1.close }
  let f3 := { f2 with rsi := rsiOf f2.close }
  let f4 := { f3 with bbHigh := bbUpperOf f3.close }
  let f5 := { f4 with bbLow := bbLowerOf f4.close }
  { f5 with volatility := volatilityOf f5.close }

/-- The qualitative signal states the script derives from the last row. -/
structure Signals where
  trend : Trend
  momentum : Momentum
  band : BandView
  volLevel : Option ℝ

/-- The whole analysis pass: compute the six indicator columns, then
classify the last row.  Returns the final frame together with the signal
states. -/
noncomputable def analyze (f : Frame) : Frame × Signals :=
  let g := addIndicators f
  (g,
    { trend := trendState (lastVal g.sma50) (lastVal g.sma200)
      momentum := momentumState (lastVal g.rsi)
      band := bandState (lastClose g.close) (lastVal g.bbHigh) (lastVal g.bbLow)
      volLevel := lastVal g.volatility })

/-- The script's top-level guard: an empty history short-circuits to the
error message, otherwise the analysis runs on the fetched frame. -/
noncomputable def runApp (closes : List ℚ) : Except String (Frame × Signals) :=
  if closes.isEmpty then
    Except.error "No historical data found for this ticker."
  else
    Except.ok (analyze (initFrame closes))

/-- The specification's sample standard deviation, stated in its own words:
the square root of the sum of squared deviations from the mean, divided by
`length - 1`. -/
noncomputable def specSampleStd (xs : List ℚ) : ℝ :=
  Real.sqrt ((((xs.map (fun x => (x - mean xs) ^ 2)).sum /
    ((xs.length : ℚ) - 1) : ℚ) : ℝ))

/-! ### Structural lemmas about the rolling combinator and the RSI series -/

theorem length_rollingApply {α : Type} (w : Nat) (f : List ℚ → α)
    (xs : List ℚ) : (rollingApply w f xs).length = xs.length := by
  simp [rollingApply]

theorem atIdx_rollingApply {α : Type} (w : Nat) (f : List ℚ → α)
    (xs : List ℚ) (i : Nat) :
    atIdx (rollingApply w f xs) i =
      if i < xs.length ∧ w ≤ i + 1 then some (f (windowAt w xs i)) else none := by
  by_cases h : i < xs.length
  · simp [atIdx, rollingApply, List.getElem?_map, List.getElem?_range, h]
  · have h2 : ¬(i < xs.length ∧ w ≤ i + 1) := fun hc => h hc.1
    have h3 : (List.range xs.length).length ≤ i := by
      simpa using Nat.le_of_not_lt h
    simp [atIdx, rollingApply, List.getElem?_map, List.getElem?_eq_none h3, h2]

theorem atIdx_rollingApply_eq_some {α : Type} {w : Nat} {f : List ℚ → α}
    {xs : List ℚ} {i : Nat} {y : α} :
    atIdx (rollingApply w f xs) i = some y ↔
      i < xs.length ∧ w ≤ i + 1 ∧ y = f (windowAt w xs i) := by
  rw [atIdx_rollingApply]
  split_ifs with h
  · simp only [Option.some.injEq]
    constructor
    · intro he; exact ⟨h.1, h.2, he.symm⟩
    · intro he; exact he.2.2.symm
  · simp only [reduceCtorEq, false_iff]
    rintro ⟨h1, h2, _⟩
    exact h ⟨h1, h2⟩

theorem lastVal_rollingApply {α : Type} (w : Nat) (hw : 1 ≤ w)
    (f : List ℚ → α) (xs : List ℚ) :
    lastVal (rollingApply w f xs) =
      if w ≤ xs.length then some (f (windowAt w xs (xs.length - 1)))
      else none := by
  unfold lastVal
  rw [length_rollingApply, atIdx_rollingApply]
  by_cases h : w ≤ xs.length
  · have h1 : xs.length - 1 < xs.length ∧ w ≤ xs.length - 1 + 1 := by omega
    rw [if_pos h1, if_pos h]
  · have h2 : ¬(xs.length - 1 < xs.length ∧ w ≤ xs.length - 1 + 1) := by omega
    rw [if_neg h2, if_neg h]

theorem lastVal_rollingApply_eq_none {α : Type} (w : Nat) (hw : 1 ≤ w)
    (f : List ℚ → α) (xs : List ℚ) :
    lastVal (rollingApply w f xs) = none ↔ xs.length < w := by
  rw [lastVal_rollingApply w hw]
  split_ifs with h
  · simp only [reduceCtorEq, false_iff]; omega
  · simp only [true_iff]; omega

theorem length_rsiOf (xs : List ℚ) : (rsiOf xs).length = xs.length := by
  simp [rsiOf]

theorem atIdx_rsiOf (xs : List ℚ) (i : Nat) :
    atIdx (rsiOf xs) i =
      if i < xs.length ∧ 14 ≤ i then
        some (rsiVal (avgGainAt xs i) (avgLossAt xs i))
      else none := by
  by_cases h : i < xs.length
  · simp [atIdx, rsiOf, List.getElem?_map, List.getElem?_range, h]
  · have h2 : ¬(i < xs.length ∧ 14 ≤ i) := fun hc => h hc.1
    have h3 : (List.range xs.length).length ≤ i := by
      simpa using Nat.le_of_not_lt h
    simp [atIdx, rsiOf, List.getElem?_map, List.getElem?_eq_none h3, h2]

theorem atIdx_rsiOf_eq_some {xs : List ℚ} {i : Nat} {r : ℚ} :
    atIdx (rsiOf xs) i = some r ↔
      i < xs.length ∧ 14 ≤ i ∧ r = rsiVal (avgGainAt xs i) (avgLossAt xs i) := by
  rw [atIdx_rsiOf]
  split_ifs with h
  · simp only [Option.some.injEq]
    constructor
    · intro he; exact ⟨h.1, h.2, he.symm⟩
    · intro he; exact he.2.2.symm
  · simp only [reduceCtorEq, false_iff]
    rintro ⟨h1, h2, _⟩; exact h ⟨h1, h2⟩

theorem lastVal_rsiOf (xs : List ℚ) :
    lastVal (rsiOf xs) =
      if 15 ≤ xs.length then
        some (rsiVal (avgGainAt xs (xs.length - 1)) (avgLossAt xs (xs.length - 1)))
      else none := by
  unfold lastVal
  rw [length_rsiOf, atIdx_rsiOf]
  by_cases h : 15 ≤ xs.length
  · have h1 : xs.length - 1 < xs.length ∧ 14 ≤ xs.length - 1 := by omega
    rw [if_pos h1, if_pos h]
  · have h2 : ¬(xs.length - 1 < xs.length ∧ 14 ≤ xs.length - 1) := by omega
    rw [if_neg h2, if_neg h]

/-! ### Arithmetic facts about means, gains, losses and the RSI formula -/

theorem mean_nonneg {xs : List ℚ} (h : ∀ x ∈ xs, 0 ≤ x) : 0 ≤ mean xs :=
  div_nonneg (List.sum_nonneg h) (Nat.cast_nonneg _)

theorem mean_pos {xs : List ℚ} (hne : xs ≠ []) (h : ∀ x ∈ xs, 0 < x) :
    0 < mean xs := by
  apply div_pos (List.sum_pos xs h hne)
  have hl : 0 < xs.length := List.length_pos.mpr hne
  exact_mod_cast hl

theorem mean_eq_zero_of_all_zero {xs : List ℚ} (h : ∀ x ∈ xs, x = 0) :
    mean xs = 0 := by
  unfold mean
  rw [List.sum_eq_zero h, zero_div]

theorem gainsOf_nonneg (xs : List ℚ) : ∀ x ∈ gainsOf xs, 0 ≤ x := by
  intro x hx
  rcases List.mem_map.mp hx with ⟨d, _, rfl⟩
  exact le_max_right d 0

theorem lossesOf_nonneg (xs : List ℚ) : ∀ x ∈ lossesOf xs, 0 ≤ x := by
  intro x hx
  rcases List.mem_map.mp hx with ⟨d, _, rfl⟩
  exact le_max_right (-d) 0

theorem avgGainAt_nonneg (xs : List ℚ) (i : Nat) : 0 ≤ avgGainAt xs i := by
  apply mean_nonneg
  intro x hx
  exact gainsOf_nonneg xs x
    (((List.take_sublist _ _).trans (List.drop_sublist _ _)).subset hx)

theorem avgLossAt_nonneg (xs : List ℚ) (i : Nat) : 0 ≤ avgLossAt xs i := by
  apply mean_nonneg
  intro x hx
  exact lossesOf_nonneg xs x
    (((List.take_sublist _ _).trans (List.drop_sublist _ _)).subset hx)

theorem rsiVal_bounds (g l : ℚ) (hg : 0 ≤ g) (hl : 0 ≤ l) :
    0 ≤ rsiVal g l ∧ rsiVal g l ≤ 100 := by
  unfold rsiVal
  split_ifs with h1 h2
  · norm_num
  · norm_num
  · have hl' : 0 < l := lt_of_le_of_ne hl (Ne.symm h1)
    have hrs : 0 ≤ g / l := div_nonneg hg hl'.le
    have hone : (1 : ℚ) ≤ 1 + g / l := by linarith
    have hpos : 0 < 100 / (1 + g / l) := div_pos (by norm_num) (by linarith)
    have hle : 100 / (1 + g / l) ≤ 100 := div_le_self (by norm_num) hone
    constructor <;> linarith

theorem diffs_pos_of_chain (xs : List ℚ)
    (hc : List.Chain' (fun a b => a < b) xs) : ∀ d ∈ diffs xs, 0 < d := by
  induction xs with
  | nil => intro d hd; simp [diffs] at hd
  | cons a t ih =>
    cases t with
    | nil => intro d hd; simp [diffs] at hd
    | cons b t2 =>
      intro d hd
      have h1 : a < b := (List.chain'_cons.mp hc).1
      have h2 : List.Chain' (fun a b => a < b) (b :: t2) :=
        (List.chain'_cons.mp hc).2
      have hdiffs : diffs (a :: b :: t2) = (b - a) :: diffs (b :: t2) := rfl
      rw [hdiffs] at hd
      rcases List.mem_cons.mp hd with h | h
      · subst h; linarith
      · exact ih h2 d h

theorem length_diffs (xs : List ℚ) : (diffs xs).length = xs.length - 1 := by
  simp only [diffs, List.length_zipWith, List.length_tail]
  omega

theorem avgLossAt_eq_zero_of_chain (xs : List ℚ)
    (hc : List.Chain' (fun a b => a < b) xs) (i : Nat) :
    avgLossAt xs i = 0 := by
  apply mean_eq_zero_of_all_zero
  intro x hx
  have hx2 : x ∈ lossesOf xs :=
    ((List.take_sublist _ _).trans (List.drop_sublist _ _)).subset hx
  rcases List.mem_map.mp hx2 with ⟨d, hd, rfl⟩
  have hdp := diffs_pos_of_chain xs hc d hd
  exact max_eq_right (by linarith)

theorem avgGainAt_pos_of_chain (xs : List ℚ)
    (hc : List.Chain' (fun a b => a < b) xs) (i : Nat)
    (h14 : 14 ≤ i) (hi : i < xs.length) : 0 < avgGainAt xs i := by
  have hglen : (gainsOf xs).length = xs.length - 1 := by
    simp [gainsOf, length_diffs]
  have hlen : (((gainsOf xs).drop (i - 14)).take 14).length = 14 := by
    rw [List.length_take, List.length_drop, hglen]
    omega
  apply mean_pos
  · intro he
    rw [he] at hlen
    simp at hlen
  · intro x hx
    have hx2 : x ∈ gainsOf xs :=
      ((List.take_sublist _ _).trans (List.drop_sublist _ _)).subset hx
    rcases List.mem_map.mp hx2 with ⟨d, hd, rfl⟩
    have hdp := diffs_pos_of_chain xs hc d hd
    rw [max_eq_left hdp.le]
    exact hdp

/-! ### The sample-variance identity -/

theorem sum_sq_sub_const (xs : List ℚ) (c : ℚ) :
    (xs.map (fun x => (x - c) ^ 2)).sum =
      sumSq xs - 2 * c * xs.sum + (xs.length : ℚ) * c ^ 2 := by
  induction xs with
  | nil => simp [sumSq]
  | cons a t ih =>
    simp only [List.map_cons, List.sum_cons, List.length_cons, sumSq] at ih ⊢
    rw [ih]
    push_cast
    ring

theorem sampleVar_eq_spec (xs : List ℚ) (hne : xs ≠ []) :
    sampleVar xs =
      ((xs.map (fun x => (x - mean xs) ^ 2)).sum) / ((xs.length : ℚ) - 1) := by
  have hn : (0 : ℚ) < (xs.length : ℚ) := by
    have hl : 0 < xs.length := List.length_pos.mpr hne
    exact_mod_cast hl
  unfold sampleVar
  rw [sum_sq_sub_const xs (mean xs)]
  unfold mean
  congr 1
  field_simp
  ring

theorem mean_const {xs : List ℚ} {c : ℚ} (hne : xs ≠ [])
    (h : ∀ x ∈ xs, x = c) : mean xs = c := by
  have hsum : xs.sum = xs.length • c := List.sum_eq_card_nsmul xs c h
  have hn : ((xs.length : ℚ)) ≠ 0 := by
    have hl : 0 < xs.length := List.length_pos.mpr hne
    exact_mod_cast hl.ne'
  unfold mean
  rw [hsum, nsmul_eq_mul, mul_div_cancel_left₀ c hn]

/-! ### Reduction helpers for the classifiers -/

theorem trendState_some (x y : ℚ) :
    trendState (some x) (some y) =
      if x > y then Trend.upward
      else if x < y then Trend.downward
      else Trend.sideways := rfl

theorem momentumState_some (x : ℚ) :
    momentumState (some x) =
      if x > 70 then Momentum.overbought
      else if x < 30 then Momentum.oversold
      else Momentum.neutral := rfl

theorem bandState_some (c : ℚ) (u l : ℝ) :
    bandState c (some u) (some l) =
      if (c : ℝ) > u then BandView.aboveUpperBand
      else if (c : ℝ) < l then BandView.belowLowerBand
      else BandView.withinBands := rfl

theorem isSome_atIdx_rollingApply {α : Type} (w : Nat) (f : List ℚ → α)
    (xs : List ℚ) (i : Nat) (hi : i < xs.length) :
    (atIdx (rollingApply w f xs) i).isSome ↔ w ≤ i + 1 := by
  rw [atIdx_rollingApply]
  split_ifs with h
  · simp [h.2]
  · have hw : ¬w ≤ i + 1 := fun hw => h ⟨hi, hw⟩
    simp [hw]

theorem isSome_atIdx_rsiOf (xs : List ℚ) (i : Nat) (hi : i < xs.length) :
    (atIdx (rsiOf xs) i).isSome ↔ 14 ≤ i := by
  rw [atIdx_rsiOf]
  split_ifs with h
  · simp [h.2]
  · have hw : ¬14 ≤ i := fun hw => h ⟨hi, hw⟩
    simp [hw]

/-! ### Claims -/

/-- C1 counterexample: on the one-element close series the last `SMA200`
value is undefined, yet the script's trend classifier answers `sideways`,
not `undetermined` as the claim states. -/
theorem C1_trend_counterexample :
    lastVal (smaOf 200 [(10 : ℚ)]) = none ∧
      trendOf [(10 : ℚ)] = Trend.sideways ∧
      Trend.sideways ≠ Trend.undetermined :=
  ⟨by decide, by decide, by decide⟩

/-- C1 (amended): if either last SMA value is undefined, the `NaN`
comparisons are false and the classifier falls through to `sideways`
(there is no `undetermined` outcome); when both are defined it answers
`upward` / `downward` / `sideways` by the sign of their difference. -/
theorem C1_trend_amended (xs : List ℚ) :
    (lastVal (smaOf 50 xs) = none ∨ lastVal (smaOf 200 xs) = none →
        trendOf xs = Trend.sideways) ∧
    (∀ a b : ℚ, lastVal (smaOf 50 xs) = some a →
        lastVal (smaOf 200 xs) = some b →
        (a > b → trendOf xs = Trend.upward) ∧
        (a < b → trendOf xs = Trend.downward) ∧
        (a = b → trendOf xs = Trend.sideways)) := by
  constructor
  · intro h
    unfold trendOf
    rcases h with h | h
    · rw [h]; cases lastVal (smaOf 200 xs) <;> rfl
    · rw [h]; cases lastVal (smaOf 50 xs) <;> rfl
  · intro a b ha hb
    unfold trendOf
    rw [ha, hb, trendState_some]
    refine ⟨?_, ?_, ?_⟩
    · intro h; rw [if_pos h]
    · intro h; rw [if_neg (asymm h), if_pos h]
    · intro h; subst h; rw [if_neg (lt_irrefl a), if_neg (lt_irrefl a)]

/-- C1 witness: the amended theorem applied to the one-element series. -/
theorem C1_trend_amended_witness : trendOf [(10 : ℚ)] = Trend.sideways :=
  (C1_trend_amended [(10 : ℚ)]).1 (Or.inl (by decide))

/-- C2 counterexample: on the one-element close series both Bollinger
bands are undefined, yet the classifier answers `withinBands`, not
`undetermined` as the claim states. -/
theorem C2_band_counterexample :
    lastVal (bbUpperOf [(10 : ℚ)]) = none ∧
      bandStateOf [(10 : ℚ)] = BandView.withinBands ∧
      BandView.withinBands ≠ BandView.undetermined :=
  ⟨rfl, rfl, by decide⟩

/-- C2 (amended): if either band is undefined (both share window 20, so
they are undefined together), the `NaN` comparisons are false and the
classifier falls through to `withinBands`; when both are defined it
answers by strict comparisons of the last close `c` against the bands,
with `c` equal to a band classified `withinBands`. -/
theorem C2_band_amended (xs : List ℚ) :
    (lastVal (bbUpperOf xs) = none ∨ lastVal (bbLowerOf xs) = none →
        bandStateOf xs = BandView.withinBands) ∧
    (∀ u l : ℝ, lastVal (bbUpperOf xs) = some u →
        lastVal (bbLowerOf xs) = some l →
        (((lastClose xs : ℚ) : ℝ) > u →
            bandStateOf xs = BandView.aboveUpperBand) ∧
        (((lastClose xs : ℚ) : ℝ) ≤ u → ((lastClose xs : ℚ) : ℝ) < l →
            bandStateOf xs = BandView.belowLowerBand) ∧
        (((lastClose xs : ℚ) : ℝ) ≤ u → l ≤ ((lastClose xs : ℚ) : ℝ) →
            bandStateOf xs = BandView.withinBands)) := by
  constructor
  · intro h
    have hlen : xs.length < 20 := by
      rcases h with h | h
      · exact (lastVal_rollingApply_eq_none 20 (by norm_num) bbUpperVal xs).mp h
      · exact (lastVal_rollingApply_eq_none 20 (by norm_num) bbLowerVal xs).mp h
    have hu : lastVal (bbUpperOf xs) = none :=
      (lastVal_rollingApply_eq_none 20 (by norm_num) bbUpperVal xs).mpr hlen
    have hl : lastVal (bbLowerOf xs) = none :=
      (lastVal_rollingApply_eq_none 20 (by norm_num) bbLowerVal xs).mpr hlen
    unfold bandStateOf
    rw [hu, hl]
    rfl
  · intro u l hu hl
    unfold bandStateOf
    rw [hu, hl, bandState_some]
    refine ⟨?_, ?_, ?_⟩
    · intro h; rw [if_pos h]
    · intro h1 h2; rw [if_neg (not_lt.mpr h1), if_pos h2]
    · intro h1 h2; rw [if_neg (not_lt.mpr h1), if_neg (not_lt.mpr h2)]

/-- C2 witness: the amended theorem applied to the one-element series. -/
theorem C2_band_amended_witness :
    bandStateOf [(10 : ℚ)] = BandView.withinBands :=
  (C2_band_amended [(10 : ℚ)]).1 (Or.inl rfl)

/-- C3: wherever the upper Bollinger Band, the window-20 SMA and the
`Volatility` value are all defined, the band exceeds the SMA by exactly
`k = 2` times the `Volatility` value — the bands and the volatility column
share one standard-deviation routine. -/
theorem C3_band_volatility_consistency (xs : List ℚ) (i : Nat) (u v s : ℝ)
    (hu : atIdx (bbUpperOf xs) i = some u)
    (hv : atIdx (volatilityOf xs) i = some v)
    (hs : atIdx (sma20Of xs) i = some s) :
    u - s = 2 * v := by
  rcases atIdx_rollingApply_eq_some.mp hu with ⟨_, _, hu2⟩
  rcases atIdx_rollingApply_eq_some.mp hv with ⟨_, _, hv2⟩
  rcases atIdx_rollingApply_eq_some.mp hs with ⟨_, _, hs2⟩
  subst hu2; subst hv2; subst hs2
  unfold bbUpperVal
  ring

/-- C3 witness: the consistency identity instantiated on a concrete
20-bar series, with all three definedness hypotheses discharged by
computation. -/
theorem C3_band_volatility_consistency_witness :
    bbUpperVal (windowAt 20 (List.replicate 20 (10 : ℚ)) 19) -
        ((mean (windowAt 20 (List.replicate 20 (10 : ℚ)) 19) : ℚ) : ℝ) =
      2 * stdDev (windowAt 20 (List.replicate 20 (10 : ℚ)) 19) :=
  C3_band_volatility_consistency (List.replicate 20 (10 : ℚ)) 19 _ _ _
    rfl rfl rfl

/-- C4 counterexample: the RSI series on a 14-element series (so `n ≥ w`
for `w = 14`) is still undefined at position `w - 1 = 13`: the RSI window
ranges over price changes, so it needs `w + 1` closes. -/
theorem C4_definedness_counterexample :
    [(1 : ℚ), 2, 3, 4, 5, 6, 7, 8, 9, 10, 11, 12, 13, 14].length = 14 ∧
      atIdx (rsiOf [(1 : ℚ), 2, 3, 4, 5, 6, 7, 8, 9, 10, 11, 12, 13, 14]) 13 =
        none :=
  ⟨by decide, by decide⟩

/-- C4 (amended): every indicator series is index-aligned 1:1 with the
input; the SMA, Bollinger-band and volatility series are defined at
position `i` exactly when `w ≤ i + 1`; the RSI series, whose window
ranges over the price changes, is defined exactly when `14 ≤ i`. -/
theorem C4_definedness_amended (xs : List ℚ) (i : Nat) (hi : i < xs.length) :
    (smaOf 50 xs).length = xs.length ∧
    (smaOf 200 xs).length = xs.length ∧
    (bbUpperOf xs).length = xs.length ∧
    (bbLowerOf xs).length = xs.length ∧
    (volatilityOf xs).length = xs.length ∧
    (rsiOf xs).length = xs.length ∧
    ((atIdx (smaOf 50 xs) i).isSome ↔ 50 ≤ i + 1) ∧
    ((atIdx (smaOf 200 xs) i).isSome ↔ 200 ≤ i + 1) ∧
    ((atIdx (bbUpperOf xs) i).isSome ↔ 20 ≤ i + 1) ∧
    ((atIdx (bbLowerOf xs) i).isSome ↔ 20 ≤ i + 1) ∧
    ((atIdx (volatilityOf xs) i).isSome ↔ 20 ≤ i + 1) ∧
    ((atIdx (rsiOf xs) i).isSome ↔ 14 ≤ i) :=
  ⟨length_rollingApply 50 mean xs,
   length_rollingApply 200 mean xs,
   length_rollingApply 20 bbUpperVal xs,
   length_rollingApply 20 bbLowerVal xs,
   length_rollingApply 20 stdDev xs,
   length_rsiOf xs,
   isSome_atIdx_rollingApply 50 mean xs i hi,
   isSome_atIdx_rollingApply 200 mean xs i hi,
   isSome_atIdx_rollingApply 20 bbUpperVal xs i hi,
   isSome_atIdx_rollingApply 20 bbLowerVal xs i hi,
   isSome_atIdx_rollingApply 20 stdDev xs i hi,
   isSome_atIdx_rsiOf xs i hi⟩

/-- C4 witness: the amended theorem applied to the one-element series at
position 0. -/
theorem C4_definedness_amended_witness :
    (smaOf 50 [(10 : ℚ)]).length = [(10 : ℚ)].length ∧
    (smaOf 200 [(10 : ℚ)]).length = [(10 : ℚ)].length ∧
    (bbUpperOf [(10 : ℚ)]).length = [(10 : ℚ)].length ∧
    (bbLowerOf [(10 : ℚ)]).length = [(10 : ℚ)].length ∧
    (volatilityOf [(10 : ℚ)]).length = [(10 : ℚ)].length ∧
    (rsiOf [(10 : ℚ)]).length = [(10 : ℚ)].length ∧
    ((atIdx (smaOf 50 [(10 : ℚ)]) 0).isSome ↔ 50 ≤ 0 + 1) ∧
    ((atIdx (smaOf 200 [(10 : ℚ)]) 0).isSome ↔ 200 ≤ 0 + 1) ∧
    ((atIdx (bbUpperOf [(10 : ℚ)]) 0).isSome ↔ 20 ≤ 0 + 1) ∧
    ((atIdx (bbLowerOf [(10 : ℚ)]) 0).isSome ↔ 20 ≤ 0 + 1) ∧
    ((atIdx (volatilityOf [(10 : ℚ)]) 0).isSome ↔ 20 ≤ 0 + 1) ∧
    ((atIdx (rsiOf [(10 : ℚ)]) 0).isSome ↔ 14 ≤ 0) :=
  C4_definedness_amended [(10 : ℚ)] 0 (by decide)

/-- C5 counterexample: on the one-element close series the last RSI value
is undefined, yet the script's momentum classifier answers `neutral`, not
`undetermined` as the claim states. -/
theorem C5_momentum_counterexample :
    lastVal (rsiOf [(10 : ℚ)]) = none ∧
      momentumOf [(10 : ℚ)] = Momentum.neutral ∧
      Momentum.neutral ≠ Momentum.undetermined :=
  ⟨by decide, by decide, by decide⟩

/-- C5 (amended): if the last RSI value is undefined, the `NaN`
comparisons are false and the classifier falls through to `neutral`
(there is no `undetermined` outcome); when it is defined the cutoffs are
strict, with the boundary values 70 and 30 classified `neutral`. -/
theorem C5_momentum_amended (xs : List ℚ) :
    (lastVal (rsiOf xs) = none → momentumOf xs = Momentum.neutral) ∧
    (∀ r : ℚ, lastVal (rsiOf xs) = some r →
        (r > 70 → momentumOf xs = Momentum.overbought) ∧
        (r < 30 → momentumOf xs = Momentum.oversold) ∧
        (30 ≤ r → r ≤ 70 → momentumOf xs = Momentum.neutral)) := by
  constructor
  · intro h
    unfold momentumOf
    rw [h]
    rfl
  · intro r hr
    unfold momentumOf
    rw [hr, momentumState_some]
    refine ⟨?_, ?_, ?_⟩
    · intro h; rw [if_pos h]
    · intro h
      rw [if_neg (by push_neg; linarith), if_pos h]
    · intro h1 h2
      rw [if_neg (not_lt.mpr h2), if_neg (not_lt.mpr h1)]

/-- C5 witness: the amended theorem applied to the one-element series. -/
theorem C5_momentum_amended_witness :
    momentumOf [(10 : ℚ)] = Momentum.neutral :=
  (C5_momentum_amended [(10 : ℚ)]).1 (by decide)

/-- C6: every defined RSI value lies in the closed interval `[0, 100]`. -/
theorem C6_rsi_bounded (xs : List ℚ) (i : Nat) (r : ℚ)
    (h : atIdx (rsiOf xs) i = some r) : 0 ≤ r ∧ r ≤ 100 := by
  rcases atIdx_rsiOf_eq_some.mp h with ⟨_, _, hr⟩
  subst hr
  exact rsiVal_bounds _ _ (avgGainAt_nonneg xs i) (avgLossAt_nonneg xs i)

/-- C6 witness: the boundedness theorem applied to a concrete 15-bar flat
series, whose RSI at position 14 computes to 50. -/
theorem C6_rsi_bounded_witness :
    atIdx (rsiOf (List.replicate 15 (10 : ℚ))) 14 = some 50 ∧
      (0 ≤ (50 : ℚ) ∧ (50 : ℚ) ≤ 100) :=
  ⟨by decide, C6_rsi_bounded (List.replicate 15 (10 : ℚ)) 14 50 (by decide)⟩

/-- C7: the RSI zero-loss edge cases — a defined RSI value is 100 when the
trailing average loss is zero and the average gain is not; it is 100 at
every defined position of a strictly increasing close series; and it is 50
when both trailing averages are zero. -/
theorem C7_rsi_zero_loss :
    (∀ (xs : List ℚ) (i : Nat) (r : ℚ), atIdx (rsiOf xs) i = some r →
        avgLossAt xs i = 0 → avgGainAt xs i ≠ 0 → r = 100) ∧
    (∀ xs : List ℚ, List.Chain' (fun a b => a < b) xs →
        ∀ (i : Nat) (r : ℚ), atIdx (rsiOf xs) i = some r → r = 100) ∧
    (∀ (xs : List ℚ) (i : Nat) (r : ℚ), atIdx (rsiOf xs) i = some r →
        avgLossAt xs i = 0 → avgGainAt xs i = 0 → r = 50) := by
  refine ⟨?_, ?_, ?_⟩
  · intro xs i r h hl hg
    rcases atIdx_rsiOf_eq_some.mp h with ⟨_, _, hr⟩
    subst hr
    unfold rsiVal
    rw [if_pos hl, if_neg hg]
  · intro xs hc i r h
    rcases atIdx_rsiOf_eq_some.mp h with ⟨hi, h14, hr⟩
    subst hr
    have hl := avgLossAt_eq_zero_of_chain xs hc i
    have hg := avgGainAt_pos_of_chain xs hc i h14 hi
    unfold rsiVal
    rw [if_pos hl, if_neg hg.ne']
  · intro xs i r h hl hg
    rcases atIdx_rsiOf_eq_some.mp h with ⟨_, _, hr⟩
    subst hr
    unfold rsiVal
    rw [if_pos hl, if_pos hg]

/-- C7 witness: the edge-case theorem applied to a strictly increasing
15-bar series (RSI 100) and to a flat 15-bar series (RSI 50). -/
theorem C7_rsi_zero_loss_witness :
    atIdx (rsiOf [(1 : ℚ), 2, 3, 4, 5, 6, 7, 8, 9, 10, 11, 12, 13, 14, 15]) 14 =
        some 100 ∧
      atIdx (rsiOf (List.replicate 15 (10 : ℚ))) 14 = some 50 ∧
      (100 : ℚ) = 100 ∧ (50 : ℚ) = 50 := by
  refine ⟨by decide, by decide, ?_, ?_⟩
  · exact C7_rsi_zero_loss.2.1
      [(1 : ℚ), 2, 3, 4, 5, 6, 7, 8, 9, 10, 11, 12, 13, 14, 15]
      (by norm_num [List.chain'_cons]) 14 100 (by decide)
  · exact C7_rsi_zero_loss.2.2 (List.replicate 15 (10 : ℚ)) 14 50
      (by decide) (by decide) (by decide)

/-- C8: the analysis pass never touches the close column — the in-place
indicator-column assignments, rendered as state passing, leave the input
price series unchanged in the resulting frame. -/
theorem C8_no_input_mutation (f : Frame) :
    ((analyze f).1).close = f.close ∧ (addIndicators f).close = f.close :=
  ⟨rfl, rfl⟩

/-- C9: the empty history short-circuits to the error message and no
analysis result; every nonempty history produces a result. -/
theorem C9_empty_input :
    runApp ([] : List ℚ) =
        Except.error "No historical data found for this ticker." ∧
      ∀ xs : List ℚ, xs ≠ [] → ∃ r, runApp xs = Except.ok r := by
  constructor
  · rfl
  · intro xs h
    cases xs with
    | nil => exact absurd rfl h
    | cons a t => exact ⟨analyze (initFrame (a :: t)), rfl⟩

/-- C9 witness: the nonemptiness branch applied to a one-element series. -/
theorem C9_empty_input_witness :
    ∃ r, runApp [(10 : ℚ)] = Except.ok r :=
  C9_empty_input.2 [(10 : ℚ)] (by decide)

/-- C10: every defined `Volatility` value is the sample standard deviation
(divisor 19) of its trailing 20-bar window, and it is 0 on a window of
identical closes. -/
theorem C10_volatility_sample_std (xs : List ℚ) (i : Nat) (v : ℝ)
    (h : atIdx (volatilityOf xs) i = some v) :
    v = specSampleStd (windowAt 20 xs i) ∧
      ((∀ y ∈ windowAt 20 xs i, ∀ z ∈ windowAt 20 xs i, y = z) → v = 0) := by
  rcases atIdx_rollingApply_eq_some.mp h with ⟨hi, h20, hv⟩
  subst hv
  have hlen : (windowAt 20 xs i).length = 20 := by
    unfold windowAt
    rw [List.length_drop, List.length_take]
    omega
  have hne : windowAt 20 xs i ≠ [] := by
    intro he
    rw [he] at hlen
    simp at hlen
  constructor
  · unfold stdDev specSampleStd
    rw [sampleVar_eq_spec _ hne]
  · intro hconst
    rcases List.exists_mem_of_ne_nil _ hne with ⟨c, hc⟩
    have hall : ∀ y ∈ windowAt 20 xs i, y = c := fun y hy => hconst y hy c hc
    have hmean : mean (windowAt 20 xs i) = c := mean_const hne hall
    have hsum : ((windowAt 20 xs i).map
        (fun x => (x - mean (windowAt 20 xs i)) ^ 2)).sum = 0 := by
      apply List.sum_eq_zero
      intro q hq
      rcases List.mem_map.mp hq with ⟨y, hy, rfl⟩
      rw [hmean, hall y hy]
      ring
    unfold stdDev
    rw [sampleVar_eq_spec _ hne, hsum, zero_div]
    simp

/-- C10 witness: the theorem applied to a flat 20-bar series, whose
volatility at position 19 equals the specification's sample standard
deviation and is 0. -/
theorem C10_volatility_sample_std_witness :
    stdDev (windowAt 20 (List.replicate 20 (7 : ℚ)) 19) =
        specSampleStd (windowAt 20 (List.replicate 20 (7 : ℚ)) 19) ∧
      stdDev (windowAt 20 (List.replicate 20 (7 : ℚ)) 19) = 0 := by
  have h : atIdx (volatilityOf (List.replicate 20 (7 : ℚ))) 19 =
      some (stdDev (windowAt 20 (List.replicate 20 (7 : ℚ)) 19)) := rfl
  have h2 := C10_volatility_sample_std (List.replicate 20 (7 : ℚ)) 19 _ h
  exact ⟨h2.1, h2.2 (by decide)⟩

end StockAnalysis
